import Mathlib

/-
  Verification of the Adaptive Quiz Session Engine (quiz_logic.py and the
  mastery aggregation described by the specification).

  Modelling conventions:
  * The PostgreSQL questions/options/word_question_map tables are modelled as
    a list of `CatQuestion` rows; the identity `question_id` is the primary
    key, and the rows of word_question_map for a question are inlined as its
    `words` field.
  * `ORDER BY RANDOM()` and `random.shuffle` are modelled by universally
    quantifying over the order of the catalog list and over an arbitrary
    permutation `shuffled` of the collected questions.
  * Fallible operations (a response referencing a question id absent from the
    questions table raises ValueError in submit_response) return
    `Except String`.
  * Machine floats for score percentages are modelled as exact rationals; the
    scores compared against (0 and 100) are exactly representable.
-/

deriving instance DecidableEq for Except

namespace VocabQuiz

/-- A row of the questions table joined with quiz_types and options, plus the
question's word_question_map entries inlined as `words` (word ids). -/
structure CatQuestion where
  question_id : Nat
  question_text : String
  correct_answer : String
  options : List String
  quiz_type : String
  words : List Nat
  deriving DecidableEq, Repr

/-- The WHERE clause of the candidate query in
QuizEngine.get_questions_by_criteria: the quiz type matches, the question id
is not among the excluded question ids, and the question is not mapped to any
excluded word (the SQL excludes every question_id occurring in
word_question_map with an excluded word_id). -/
def questionMatches (q : CatQuestion) (quizType : String)
    (excludedQuestions excludedWords : List Nat) : Bool :=
  q.quiz_type == quizType
    && !(excludedQuestions.contains q.question_id)
    && !(q.words.any (fun w => excludedWords.contains w))

/-- QuizEngine.get_questions_by_criteria: the SQL query filters the catalog by
`questionMatches` and fetches at most `count * 2` rows (LIMIT count * 2) in a
random order (modelled by the order of `cat`); the Python loop then keeps the
first `count` of them. -/
def get_questions_by_criteria (cat : List CatQuestion) (quizType : String)
    (count : Nat) (excludedQuestions excludedWords : List Nat) :
    List CatQuestion :=
  (((cat.filter
      (fun q => questionMatches q quizType excludedQuestions excludedWords)).take
    (count * 2)).take count)

/-- QuizConfig: the overall target question count and the per-quiz-type
sub-target distribution (a Python dict, hence distinct keys in insertion
order).  The target is an `Int` because the Python code never validates it
and a negative value reaches the final `all_questions[:target]` slice. -/
structure QuizConfig where
  target_question_count : Int := 20
  format_distribution : List (String × Nat) :=
    [("synonym", 4), ("antonym", 4), ("word_meaning", 4),
     ("fill_in_blank", 3), ("analogy", 3), ("odd_one_out", 2)]
  deriving DecidableEq, Repr

/-- The question-collection phase of QuizEngine.generate_quiz: one
get_questions_by_criteria call per entry of format_distribution, extended in
order; if the total falls short of target_question_count, a backfill call
(type "synonym") for the missing amount, with the already-used question ids
added to the excluded set. -/
def collectQuestions (cat : List CatQuestion) (config : QuizConfig)
    (excludedQuestions excludedWords : List Nat) : List CatQuestion :=
  let allQuestions :=
    (config.format_distribution.map
      (fun p => get_questions_by_criteria cat p.1 p.2
        excludedQuestions excludedWords)).flatten
  if (allQuestions.length : Int) < config.target_question_count then
    let needed := (config.target_question_count - allQuestions.length).toNat
    let used := allQuestions.map (fun q => q.question_id)
    allQuestions ++
      get_questions_by_criteria cat "synonym" needed
        (excludedQuestions ++ used) excludedWords
  else
    allQuestions

/-- Python list slicing l[:n]: for nonnegative n the first n elements, for
negative n all but the last |n| elements. -/
def pySlice (l : List α) (n : Int) : List α :=
  if 0 ≤ n then l.take n.toNat else l.take (l.length - (-n).toNat)

/-- The final step of QuizEngine.generate_quiz: random.shuffle followed by
`all_questions[:config.target_question_count]`.  The shuffle is modelled by
taking the already-shuffled list as the argument: theorems quantify over any
`shuffled` that is a permutation of `collectQuestions cat config exq exw`. -/
def generate_quiz (config : QuizConfig) (shuffled : List CatQuestion) :
    List CatQuestion :=
  pySlice shuffled config.target_question_count

/-- Python str.strip() with no argument: remove leading and trailing
whitespace, modelled on the character list. -/
def pyStrip (s : String) : String :=
  ⟨((s.data.dropWhile Char.isWhitespace).reverse.dropWhile
      Char.isWhitespace).reverse⟩

/-- Python str.lower(): lowercase each character. -/
def pyLower (s : String) : String :=
  ⟨s.data.map Char.toLower⟩

/-- The correctness test on line 333 of quiz_logic.py:
selected_answer.strip().lower() == correct_answer.strip().lower(). -/
def isCorrectAnswer (selected correctAnswer : String) : Bool :=
  pyLower (pyStrip selected) == pyLower (pyStrip correctAnswer)

/-- QuizResponse as built by QuizEngine.submit_response. -/
structure QuizResponseM where
  question_id : Nat
  question_text : String
  user_answer : String
  correct_answer : String
  selected_answer : String
  is_correct : Bool
  quiz_type : String
  deriving DecidableEq, Repr

/-- One element of the `responses` argument of QuizEngine.submit_quiz:
a dict with keys question_id and answer. -/
structure RespIn where
  question_id : Nat
  answer : String
  deriving DecidableEq, Repr

/-- QuizEngine.submit_response: look the question up in the questions table
(ValueError when absent), compare the answers after strip().lower(), and
return the QuizResponse.  The INSERT INTO responses side effect is durable
per round and not part of the in-memory state the claims are about. -/
def submit_response (cat : List CatQuestion) (question_id : Nat)
    (selected_answer : String) : Except String QuizResponseM :=
  match cat.find? (fun q => q.question_id == question_id) with
  | none => .error "Question not found"
  | some q => .ok {
      question_id := question_id
      question_text := q.question_text
      user_answer := selected_answer
      correct_answer := q.correct_answer
      selected_answer := selected_answer
      is_correct := isCorrectAnswer selected_answer q.correct_answer
      quiz_type := q.quiz_type }

/-- The response-submission loop at the top of QuizEngine.submit_quiz: each
response is submitted in order and the first failure aborts the whole call. -/
def submitAll (cat : List CatQuestion) : List RespIn →
    Except String (List QuizResponseM)
  | [] => .ok []
  | r :: rest =>
    match submit_response cat r.question_id r.answer with
    | .error e => .error e
    | .ok resp =>
      match submitAll cat rest with
      | .error e => .error e
      | .ok others => .ok (resp :: others)

/-- QuizResult as computed by QuizEngine.submit_quiz (mastery_updates, a
read-only projection of the store, is omitted).  incorrect_questions is a
plain list; the empty list models Python's None. -/
structure QuizResultM where
  total_questions : Nat
  correct_answers : Nat
  responses : List QuizResponseM
  is_perfect_score : Bool
  incorrect_questions : List CatQuestion
  deriving DecidableEq, Repr

/-- QuizResult.score_percentage as computed in QuizEngine.submit_quiz:
(correct_count / total_count * 100) when total_count > 0, else 0.  The field
is always set from correct_answers and total_questions at construction and
never mutated, so it is modelled as a derived projection. -/
def QuizResultM.score_percentage (result : QuizResultM) : Rat :=
  if result.total_questions > 0 then
    ((result.correct_answers : Rat) * 100) / (result.total_questions : Rat)
  else 0

/-- QuizEngine.submit_quiz: submit every response, count the correct ones,
compute the score (0 for an empty round), set is_perfect_score to
correct_count == total_count, and when the score is not perfect fetch the
full question rows for the distinct incorrectly-answered question ids. -/
def submit_quiz (cat : List CatQuestion) (responses : List RespIn) :
    Except String QuizResultM :=
  match submitAll cat responses with
  | .error e => .error e
  | .ok quizResponses =>
    let correctCount := (quizResponses.filter (fun r => r.is_correct)).length
    let totalCount := quizResponses.length
    let isPerfectScore := correctCount == totalCount
    let incorrectIds :=
      (quizResponses.filter (fun r => !r.is_correct)).map
        (fun r => r.question_id)
    let incorrectQuestions :=
      if isPerfectScore then []
      else cat.filter (fun q => incorrectIds.contains q.question_id)
    .ok {
      total_questions := totalCount
      correct_answers := correctCount
      responses := quizResponses
      is_perfect_score := isPerfectScore
      incorrect_questions := incorrectQuestions }

/-- QuizSession: the in-memory session state.  current_questions stands for
the quiz_attempt_items of the currently active attempt (the attempt-id
bookkeeping, a database sequence, is elided). -/
structure QuizSessionM where
  session_id : String
  user_id : Nat
  original_questions : List CatQuestion
  current_round : Nat
  current_questions : List CatQuestion
  completed_rounds : List QuizResultM
  is_completed : Bool
  deriving DecidableEq, Repr

/-- QuizEngine.submit_quiz_session_round: submit the round, append the result
to completed_rounds, then: perfect score marks the session completed; an
imperfect score with incorrect questions spawns a retry round (round counter
incremented, active questions replaced by create_retry_quiz with exactly the
incorrect questions); otherwise the session is marked completed. -/
def submit_quiz_session_round (cat : List CatQuestion) (session : QuizSessionM)
    (responses : List RespIn) : Except String (QuizResultM × QuizSessionM) :=
  match submit_quiz cat responses with
  | .error e => .error e
  | .ok result =>
    let withRound :=
      { session with completed_rounds := session.completed_rounds ++ [result] }
    if result.is_perfect_score then
      .ok (result, { withRound with is_completed := true })
    else if !result.incorrect_questions.isEmpty then
      .ok (result, { withRound with
        current_round := withRound.current_round + 1
        current_questions := result.incorrect_questions })
    else
      .ok (result, { withRound with is_completed := true })

/-- A sequence of round submissions applied to a session, one
submit_quiz_session_round per element (the per-session serialization required
by the design). -/
def run_session (cat : List CatQuestion) :
    QuizSessionM → List (List RespIn) → Except String QuizSessionM
  | session, [] => .ok session
  | session, rs :: rest =>
    match submit_quiz_session_round cat session rs with
    | .error e => .error e
    | .ok step => run_session cat step.2 rest

/-- Per-(user, question) mastery state kept by the Mastery Store. -/
structure QuestionMasteryState where
  first_try_correct_count : Nat
  is_mastered : Bool
  deriving DecidableEq, Repr

/-- The state of a never-attempted question. -/
def initialMastery : QuestionMasteryState :=
  { first_try_correct_count := 0, is_mastered := false }

/-- Modelled from the spec: the repository implements the mastery increment in
database triggers (enhanced_question_mastery_schema.sql and enhanced_schema.sql
are referenced by the tests but are not under src/).  Per the specification:
only a correct first-attempt-within-a-round outcome increments the
first-try-correct counter, the counter is capped (no further increment once
is_mastered is true), and is_mastered becomes true once the counter reaches
the threshold of 2. -/
def recordAttempt (st : QuestionMasteryState)
    (isCorrect isFirstAttempt : Bool) : QuestionMasteryState :=
  if isFirstAttempt && isCorrect && !st.is_mastered then
    let c := st.first_try_correct_count + 1
    { first_try_correct_count := c, is_mastered := decide (2 ≤ c) }
  else st

/-- The mastery state after a sequence of recorded attempts, each given as
(isCorrect, isFirstAttempt), starting from the never-attempted state. -/
def runAttempts (attempts : List (Bool × Bool)) : QuestionMasteryState :=
  attempts.foldl (fun st a => recordAttempt st a.1 a.2) initialMastery

/-- The derived word-mastery figures read back by getWordMastery /
vw_word_mastery_detail. -/
structure WordMasteryView where
  totalQuestions : Nat
  masteredQuestions : Nat
  percentage : Rat
  deriving DecidableEq, Repr

/-- The distinct question ids currently mapped to a word in word_question_map
(the mapping is a list of (question_id, word_id) rows). -/
def questionsMappedTo (mapping : List (Nat × Nat)) (w : Nat) : List Nat :=
  ((mapping.filter (fun p => p.2 == w)).map (fun p => p.1)).dedup

/-- Modelled from the spec: the repository computes this view in SQL
(vw_word_mastery_detail, defined in schema files that are not under src/).
Per the specification: totalQuestions counts all questions currently mapped
to the word, masteredQuestions counts the mastered ones among them, and the
percentage is 100 * masteredQuestions / totalQuestions, with 0 (not an error)
when totalQuestions is 0; everything is recomputed fresh on each read. -/
def wordMastery (mapping : List (Nat × Nat)) (masteredQ : Nat → Bool)
    (w : Nat) : WordMasteryView :=
  let qs := questionsMappedTo mapping w
  let total := qs.length
  let mastered := (qs.filter masteredQ).length
  { totalQuestions := total
    masteredQuestions := mastered
    percentage :=
      if total = 0 then 0 else ((mastered : Rat) * 100) / (total : Rat) }

/-- Concrete one-question catalog used by witnesses. -/
def catW : List CatQuestion := [⟨1, "q", "a", ["a"], "synonym", []⟩]

/-- A fresh session over `catW`, used by witnesses. -/
def sessionW : QuizSessionM := ⟨"sid", 1, catW, 1, catW, [], false⟩

/-- The QuizResult of answering the single `catW` question wrong. -/
def resultWrongW : QuizResultM :=
  ⟨1, 0, [⟨1, "q", "b", "a", "b", false, "synonym"⟩], false, catW⟩

/-- The session state after the wrong round of `resultWrongW`. -/
def sessionAfterWrongW : QuizSessionM :=
  ⟨"sid", 1, catW, 2, catW, [resultWrongW], false⟩

/-- The QuizResult of answering the single `catW` question right. -/
def resultRightW : QuizResultM :=
  ⟨1, 1, [⟨1, "q", "a", "a", "a", true, "synonym"⟩], true, []⟩

/-- The session state after the perfect round of `resultRightW`. -/
def sessionDoneW : QuizSessionM := ⟨"sid", 1, catW, 1, catW, [resultRightW], true⟩

/-- Every QuizResponse produced by submit_response carries the submitted
question id and the catalog's correct answer, compared via isCorrectAnswer. -/
theorem submit_response_ok_spec {cat : List CatQuestion} {question_id : Nat}
    {selected : String} {resp : QuizResponseM}
    (h : submit_response cat question_id selected = .ok resp) :
    resp.question_id = question_id ∧
      ∃ q ∈ cat, q.question_id = question_id ∧
        resp.correct_answer = q.correct_answer ∧
        resp.is_correct = isCorrectAnswer selected q.correct_answer := by
  unfold submit_response at h
  cases hf : cat.find? (fun q => q.question_id == question_id) with
  | none => rw [hf] at h; cases h
  | some q =>
    rw [hf] at h
    injection h with h
    subst h
    refine ⟨rfl, q, List.mem_of_find?_eq_some hf, ?_, rfl, rfl⟩
    have hp := List.find?_some hf
    exact eq_of_beq hp

/-- submitAll succeeds exactly when every response's question id resolves, and
then returns one QuizResponse (in order) per submitted response. -/
theorem submitAll_ok_length {cat : List CatQuestion} :
    ∀ {responses : List RespIn} {out : List QuizResponseM},
      submitAll cat responses = .ok out → out.length = responses.length := by
  intro responses
  induction responses with
  | nil =>
    intro out h
    unfold submitAll at h
    injection h with h
    simp [← h]
  | cons r rest ih =>
    intro out h
    unfold submitAll at h
    cases hr : submit_response cat r.question_id r.answer with
    | error e => rw [hr] at h; cases h
    | ok resp =>
      rw [hr] at h
      cases ho : submitAll cat rest with
      | error e => rw [ho] at h; cases h
      | ok others =>
        rw [ho] at h
        injection h with h
        simp [← h, ih ho]

/-- Every response returned by submitAll references a question that exists in
the catalog. -/
theorem submitAll_ok_mem {cat : List CatQuestion} :
    ∀ {responses : List RespIn} {out : List QuizResponseM},
      submitAll cat responses = .ok out →
      ∀ r ∈ out, ∃ q ∈ cat, q.question_id = r.question_id := by
  intro responses
  induction responses with
  | nil =>
    intro out h
    unfold submitAll at h
    injection h with h
    subst h
    intro r hr
    cases hr
  | cons r rest ih =>
    intro out h
    unfold submitAll at h
    cases hr : submit_response cat r.question_id r.answer with
    | error e => rw [hr] at h; cases h
    | ok resp =>
      rw [hr] at h
      cases ho : submitAll cat rest with
      | error e => rw [ho] at h; cases h
      | ok others =>
        rw [ho] at h
        injection h with h
        subst h
        intro x hx
        rcases List.mem_cons.mp hx with hx | hx
        · subst hx
          obtain ⟨hid, q, hq, hqid, -⟩ := submit_response_ok_spec hr
          exact ⟨q, hq, by rw [hqid, hid]⟩
        · exact ih ho x hx

/-- When every submitted question id occurs in the catalog, submitAll
succeeds. -/
theorem submitAll_ok_of_all_present {cat : List CatQuestion} :
    ∀ {responses : List RespIn},
      responses.all
        (fun r => (cat.map (fun q => q.question_id)).contains r.question_id)
        = true →
      ∃ out, submitAll cat responses = .ok out := by
  intro responses
  induction responses with
  | nil => intro _; exact ⟨[], rfl⟩
  | cons r rest ih =>
    intro h
    rw [List.all_cons, Bool.and_eq_true] at h
    obtain ⟨hr, hrest⟩ := h
    have hmem : r.question_id ∈ cat.map (fun q => q.question_id) :=
      List.elem_iff.mp hr
    obtain ⟨q, hq, hqid⟩ := List.mem_map.mp hmem
    have hsome : (cat.find? (fun q => q.question_id == r.question_id)).isSome :=
      List.find?_isSome.mpr ⟨q, hq, by simp [hqid]⟩
    obtain ⟨out, hout⟩ := ih hrest
    cases hf : cat.find? (fun q => q.question_id == r.question_id) with
    | none => rw [hf] at hsome; cases hsome
    | some q0 =>
      refine ⟨QuizResponseM.mk r.question_id q0.question_text r.answer
          q0.correct_answer r.answer
          (isCorrectAnswer r.answer q0.correct_answer) q0.quiz_type :: out, ?_⟩
      unfold submitAll submit_response
      rw [hf, hout]

/-- Characterization of a successful submit_quiz call in terms of the
submitted responses. -/
theorem submit_quiz_ok_spec {cat : List CatQuestion} {responses : List RespIn}
    {result : QuizResultM} (h : submit_quiz cat responses = .ok result) :
    submitAll cat responses = .ok result.responses ∧
      result.total_questions = result.responses.length ∧
      result.correct_answers
        = (result.responses.filter (fun r => r.is_correct)).length ∧
      result.is_perfect_score
        = ((result.responses.filter (fun r => r.is_correct)).length
            == result.responses.length) ∧
      result.incorrect_questions
        = (if ((result.responses.filter (fun r => r.is_correct)).length
              == result.responses.length)
           then []
           else cat.filter (fun q =>
            (((result.responses.filter (fun r => !r.is_correct)).map
              (fun r => r.question_id)).contains q.question_id))) := by
  unfold submit_quiz at h
  cases hall : submitAll cat responses with
  | error e => rw [hall] at h; cases h
  | ok out =>
    rw [hall] at h
    dsimp only at h
    injection h with h
    subst h
    exact ⟨rfl, rfl, rfl, rfl, rfl⟩

/-- A successful but imperfect round always has a non-empty
incorrect_questions list: each incorrectly answered question was resolved in
the catalog when its response was submitted. -/
theorem submit_quiz_imperfect_incorrect_ne_nil {cat : List CatQuestion}
    {responses : List RespIn} {result : QuizResultM}
    (h : submit_quiz cat responses = .ok result)
    (hnp : result.is_perfect_score = false) :
    result.incorrect_questions ≠ [] := by
  obtain ⟨hall, -, -, hperf, hinc⟩ := submit_quiz_ok_spec h
  have hne : ((result.responses.filter (fun r => r.is_correct)).length
      == result.responses.length) = false := by rw [← hperf]; exact hnp
  have hneq : (result.responses.filter (fun r => r.is_correct)).length
      ≠ result.responses.length := by simpa using hne
  have hlt : (result.responses.filter (fun r => r.is_correct)).length
      < result.responses.length :=
    Nat.lt_of_le_of_ne (List.length_filter_le _ _) hneq
  have hex : ∃ r ∈ result.responses, r.is_correct = false := by
    by_contra hno
    push_neg at hno
    refine absurd (List.filter_length_eq_length.mpr ?_) (Nat.ne_of_lt hlt)
    intro a ha
    cases hac : a.is_correct with
    | false => exact absurd hac (hno a ha)
    | true => rfl
  obtain ⟨r, hrmem, hrinc⟩ := hex
  obtain ⟨q, hq, hqid⟩ := submitAll_ok_mem hall r hrmem
  rw [hinc, if_neg (by simp [hne])]
  refine List.ne_nil_of_mem (a := q) ?_
  rw [List.mem_filter]
  refine ⟨hq, List.elem_iff.mpr ?_⟩
  rw [hqid]
  exact List.mem_map.mpr ⟨r, List.mem_filter.mpr
    ⟨hrmem, by rw [hrinc]; rfl⟩, rfl⟩

/-- Characterization of a successful submit_quiz_session_round step: the
result is appended to completed_rounds, the completion flag becomes true
exactly when the round was perfect (or stays true), and an imperfect round
advances the round counter and replaces the active questions with the
incorrect ones. -/
theorem session_round_ok_spec {cat : List CatQuestion} {session : QuizSessionM}
    {responses : List RespIn} {result : QuizResultM} {session' : QuizSessionM}
    (h : submit_quiz_session_round cat session responses
      = .ok (result, session')) :
    submit_quiz cat responses = .ok result ∧
      session'.completed_rounds = session.completed_rounds ++ [result] ∧
      session'.is_completed = (session.is_completed || result.is_perfect_score) ∧
      (result.is_perfect_score = false →
        session'.current_round = session.current_round + 1 ∧
        session'.current_questions = result.incorrect_questions) ∧
      (result.is_perfect_score = true →
        session'.current_round = session.current_round ∧
        session'.current_questions = session.current_questions ∧
        session'.is_completed = true) := by
  unfold submit_quiz_session_round at h
  cases hq : submit_quiz cat responses with
  | error e => rw [hq] at h; cases h
  | ok res =>
    rw [hq] at h
    dsimp only at h
    cases hperf : res.is_perfect_score with
    | true =>
      rw [if_pos hperf] at h
      injection h with h
      injection h with h1 h2
      subst h1
      subst h2
      refine ⟨rfl, rfl, by simp [hperf], ?_, fun _ => ⟨rfl, rfl, rfl⟩⟩
      intro hc
      rw [hperf] at hc
      cases hc
    | false =>
      rw [if_neg (by rw [hperf]; exact Bool.false_ne_true)] at h
      have hne : res.incorrect_questions ≠ [] :=
        submit_quiz_imperfect_incorrect_ne_nil hq hperf
      rw [if_pos (by simp [List.isEmpty_iff, hne])] at h
      injection h with h
      injection h with h1 h2
      subst h1
      subst h2
      refine ⟨rfl, rfl, by simp [hperf], fun _ => ⟨rfl, rfl⟩, ?_⟩
      intro hc
      rw [hperf] at hc
      cases hc

/-- C1 counterexample: the claim says an empty submission leaves the session
not completed, but submitting an empty response list to an active one-question
session marks it completed (0 correct of 0 total counts as a perfect score). -/
theorem c1_empty_round_counterexample :
    (submit_quiz_session_round [⟨1, "q", "a", ["a"], "synonym", [2]⟩]
        ⟨"sid", 1, [⟨1, "q", "a", ["a"], "synonym", [2]⟩], 1,
          [⟨1, "q", "a", ["a"], "synonym", [2]⟩], [], false⟩ []).map
      (fun p => p.2.is_completed) = .ok true := by decide

/-- C1 (amended): for every session, submitting an empty response list leaves
the round counter and the active question set unchanged, but the round is
scored as a perfect round of zero questions and the session is marked
completed rather than rejected as a caller error. -/
theorem c1_empty_round_completes (cat : List CatQuestion)
    (session : QuizSessionM) :
    (submit_quiz_session_round cat session []).map
        (fun p => (p.2.current_round, p.2.current_questions, p.2.is_completed,
          p.1.total_questions, p.1.is_perfect_score))
      = .ok (session.current_round, session.current_questions, true, 0, true) :=
  rfl

/-- C2 counterexample: the session's active round holds only question 1, yet a
response for question 2 (present in the catalog, absent from the active set)
is accepted and scored instead of being dropped, and — it being the only
response — the round is processed and the session state advances (here to
completed) instead of the submission being rejected. -/
theorem c2_out_of_active_set_counterexample :
    (submit_quiz_session_round
        [⟨1, "q1", "a", ["a"], "synonym", []⟩,
         ⟨2, "q2", "b", ["b"], "synonym", []⟩]
        ⟨"sid", 1, [⟨1, "q1", "a", ["a"], "synonym", []⟩], 1,
          [⟨1, "q1", "a", ["a"], "synonym", []⟩], [], false⟩
        [⟨2, "b"⟩]).map
      (fun p => (p.1.total_questions, p.1.correct_answers, p.2.is_completed))
      = .ok (1, 1, true) := by decide

/-- C2 (amended): submitted responses are not validated against the session's
currently-active question set: every response whose question id exists in the
question catalog is accepted, recorded and scored, even when the question is
not part of the active round; only a question id absent from the catalog
makes the whole submission fail with an error. -/
theorem c2_no_active_set_validation (cat : List CatQuestion)
    (session : QuizSessionM) (responses : List RespIn)
    (h : responses.all
        (fun r => (cat.map (fun q => q.question_id)).contains r.question_id)
        = true) :
    (submit_quiz_session_round cat session responses).map
        (fun p => p.1.total_questions) = .ok responses.length := by
  obtain ⟨out, hout⟩ := submitAll_ok_of_all_present h
  have hq : submit_quiz cat responses
      = .ok { total_questions := out.length
              correct_answers := (out.filter (fun r => r.is_correct)).length
              is_perfect_score :=
                (out.filter (fun r => r.is_correct)).length == out.length
              responses := out
              incorrect_questions :=
                if ((out.filter (fun r => r.is_correct)).length == out.length)
                then []
                else cat.filter (fun q =>
                  (((out.filter (fun r => !r.is_correct)).map
                    (fun r => r.question_id)).contains q.question_id)) } := by
    unfold submit_quiz
    rw [hout]
  unfold submit_quiz_session_round
  rw [hq]
  dsimp only
  have hlen := submitAll_ok_length hout
  split
  · simp [Except.map, hlen]
  · split
    · simp [Except.map, hlen]
    · simp [Except.map, hlen]

/-- C2 witness: a concrete instance of the amended claim — the only response
targets catalog question 2 while the active round contains only question 1,
and the submission still succeeds with that response counted. -/
theorem c2_no_active_set_validation_witness :
    ([⟨2, "b"⟩] : List RespIn).all
        (fun r => (([⟨1, "q1", "a", ["a"], "synonym", []⟩,
            ⟨2, "q2", "b", ["b"], "synonym", []⟩] :
          List CatQuestion).map (fun q => q.question_id)).contains
            r.question_id) = true
    ∧ (submit_quiz_session_round
        [⟨1, "q1", "a", ["a"], "synonym", []⟩,
         ⟨2, "q2", "b", ["b"], "synonym", []⟩]
        ⟨"sid", 1, [⟨1, "q1", "a", ["a"], "synonym", []⟩], 1,
          [⟨1, "q1", "a", ["a"], "synonym", []⟩], [], false⟩
        [⟨2, "b"⟩]).map (fun p => p.1.total_questions)
      = .ok ([⟨2, "b"⟩] : List RespIn).length :=
  ⟨by decide, c2_no_active_set_validation _ _ _ (by decide)⟩

/-- C3: for every session and submitted round in which at least one response
was answered incorrectly, the session advances to round k+1 and the new
active question set is exactly the set of question ids answered incorrectly
in this round. -/
theorem c3_retry_round_is_incorrect_set (cat : List CatQuestion)
    (session : QuizSessionM) (responses : List RespIn)
    (result : QuizResultM) (session' : QuizSessionM)
    (h : submit_quiz_session_round cat session responses
      = .ok (result, session'))
    (hne : result.responses.any (fun r => !r.is_correct) = true) :
    session'.current_round = session.current_round + 1
    ∧ (session'.current_questions.map (fun q => q.question_id)).toFinset
        = ((result.responses.filter (fun r => !r.is_correct)).map
            (fun r => r.question_id)).toFinset := by
  obtain ⟨hq, -, -, himp, -⟩ := session_round_ok_spec h
  obtain ⟨hall, -, -, hperf, hinc⟩ := submit_quiz_ok_spec hq
  obtain ⟨r0, hr0mem, hr0⟩ := List.any_eq_true.mp hne
  have hr0false : r0.is_correct = false := by
    cases hc : r0.is_correct with
    | false => rfl
    | true => rw [hc] at hr0; cases hr0
  have hlt : (result.responses.filter (fun r => r.is_correct)).length
      < result.responses.length := by
    refine Nat.lt_of_le_of_ne (List.length_filter_le _ _) ?_
    intro heq
    have := List.filter_length_eq_length.mp heq r0 hr0mem
    rw [hr0false] at this
    cases this
  have hperfFalse : result.is_perfect_score = false := by
    rw [hperf]
    simpa using Nat.ne_of_lt hlt
  obtain ⟨hround, hquestions⟩ := himp hperfFalse
  refine ⟨hround, ?_⟩
  have hinc2 : result.incorrect_questions
      = cat.filter (fun q =>
        (((result.responses.filter (fun r => !r.is_correct)).map
          (fun r => r.question_id)).contains q.question_id)) := by
    rw [hinc, if_neg (by simpa using Nat.ne_of_lt hlt)]
  ext n
  simp only [List.mem_toFinset, List.mem_map, hquestions, hinc2]
  constructor
  · rintro ⟨q, hqmem, rfl⟩
    have := (List.mem_filter.mp hqmem).2
    obtain ⟨r, hrmem, hrid⟩ := List.mem_map.mp (List.elem_iff.mp this)
    exact ⟨r, hrmem, hrid⟩
  · rintro ⟨r, hrmem, rfl⟩
    obtain ⟨q, hqcat, hqid⟩ :=
      submitAll_ok_mem hall r (List.mem_filter.mp hrmem).1
    refine ⟨q, List.mem_filter.mpr ⟨hqcat, ?_⟩, hqid⟩
    rw [hqid]
    exact List.elem_iff.mpr (List.mem_map.mpr ⟨r, hrmem, rfl⟩)

/-- C3 witness: a concrete one-question round answered incorrectly advances
the session to round 2 with exactly that question as the new active set. -/
theorem c3_retry_round_is_incorrect_set_witness :
    submit_quiz_session_round catW sessionW [⟨1, "b"⟩]
      = .ok (resultWrongW, sessionAfterWrongW)
    ∧ resultWrongW.responses.any (fun r => !r.is_correct) = true
    ∧ (sessionAfterWrongW.current_round = sessionW.current_round + 1
      ∧ (sessionAfterWrongW.current_questions.map
          (fun q => q.question_id)).toFinset
        = ((resultWrongW.responses.filter (fun r => !r.is_correct)).map
            (fun r => r.question_id)).toFinset) :=
  ⟨by decide, by decide,
    c3_retry_round_is_incorrect_set catW sessionW [⟨1, "b"⟩] resultWrongW
      sessionAfterWrongW (by decide) (by decide)⟩

/-- Sessions never leave the completed state and the completion flag always
equals the existence of a perfect round among the completed rounds. -/
theorem run_session_completed_inv (cat : List CatQuestion) :
    ∀ (subs : List (List RespIn)) (s s' : QuizSessionM),
      run_session cat s subs = .ok s' →
      s.is_completed = s.completed_rounds.any (fun r => r.is_perfect_score) →
      s'.is_completed = s'.completed_rounds.any (fun r => r.is_perfect_score) := by
  intro subs
  induction subs with
  | nil =>
    intro s s' h hinv
    unfold run_session at h
    injection h with h
    rw [← h]
    exact hinv
  | cons rs rest ih =>
    intro s s' h hinv
    unfold run_session at h
    cases hstep : submit_quiz_session_round cat s rs with
    | error e => rw [hstep] at h; cases h
    | ok step =>
      rw [hstep] at h
      refine ih step.2 s' h ?_
      obtain ⟨-, hrounds, hcomp, -, -⟩ := session_round_ok_spec
        (show submit_quiz_session_round cat s rs = .ok (step.1, step.2) from hstep)
      rw [hcomp, hrounds, hinv, List.any_append]
      simp

/-- C4 counterexample: the claim says COMPLETED is reached only when a round
achieves 100% correctness, but running a single empty round completes the
session while its only completed round scored 0%. -/
theorem c4_completed_without_full_score_counterexample :
    (run_session catW sessionW [[]]).map
        (fun s => (s.is_completed,
          s.completed_rounds.map (fun r => r.score_percentage)))
      = .ok (true, [0]) := by decide

/-- C4 (amended): a session run from a fresh state is COMPLETED if and only if
some submitted round was scored perfect, where a perfect round is one whose
correct count equals its total count — vacuously including an empty round,
whose score percentage is 0, not 100; otherwise it stays active across
arbitrarily many rounds. -/
theorem c4_completed_iff_perfect_round (cat : List CatQuestion)
    (s0 s1 : QuizSessionM) (subs : List (List RespIn))
    (hrun : run_session cat s0 subs = .ok s1)
    (h0 : s0.is_completed = false) (h1 : s0.completed_rounds = []) :
    s1.is_completed = s1.completed_rounds.any (fun r => r.is_perfect_score) :=
  run_session_completed_inv cat subs s0 s1 hrun (by rw [h0, h1]; rfl)

/-- C4 witness: a fresh one-question session answered correctly in its first
round ends completed, matching the existence of a perfect completed round. -/
theorem c4_completed_iff_perfect_round_witness :
    run_session catW sessionW [[⟨1, "a"⟩]] = .ok sessionDoneW
    ∧ sessionW.is_completed = false
    ∧ sessionW.completed_rounds = []
    ∧ sessionDoneW.is_completed
        = sessionDoneW.completed_rounds.any (fun r => r.is_perfect_score) :=
  ⟨by decide, rfl, rfl,
    c4_completed_iff_perfect_round catW sessionW sessionDoneW [[⟨1, "a"⟩]]
      (by decide) rfl rfl⟩

/-- C9: for every submitted response that resolves to a catalog question, the
correctness verdict equals comparison of the selected answer with the stored
correct answer after stripping surrounding whitespace and lowercasing both,
so answers differing only in letter case or surrounding whitespace are judged
correct. -/
theorem c9_correctness_normalizes_case_whitespace (cat : List CatQuestion)
    (question_id : Nat) (selected : String) (resp : QuizResponseM)
    (h : submit_response cat question_id selected = .ok resp) :
    resp.is_correct
      = (pyLower (pyStrip selected)
          == pyLower (pyStrip resp.correct_answer)) := by
  obtain ⟨-, q, -, -, hca, hic⟩ := submit_response_ok_spec h
  rw [hic, hca]
  rfl

/-- C9 witness: the answer "  hAPPy " is judged correct against the stored
answer "Happy", differing only in case and surrounding whitespace. -/
theorem c9_correctness_normalizes_case_whitespace_witness :
    submit_response [⟨1, "q", "Happy", ["Happy"], "synonym", []⟩] 1 "  hAPPy "
      = .ok ⟨1, "q", "  hAPPy ", "Happy", "  hAPPy ", true, "synonym"⟩
    ∧ (⟨1, "q", "  hAPPy ", "Happy", "  hAPPy ", true, "synonym"⟩ :
        QuizResponseM).is_correct
      = (pyLower (pyStrip "  hAPPy ")
          == pyLower (pyStrip (⟨1, "q", "  hAPPy ", "Happy", "  hAPPy ", true,
            "synonym"⟩ : QuizResponseM).correct_answer)) :=
  ⟨by decide,
    c9_correctness_normalizes_case_whitespace
      [⟨1, "q", "Happy", ["Happy"], "synonym", []⟩] 1 "  hAPPy "
      ⟨1, "q", "  hAPPy ", "Happy", "  hAPPy ", true, "synonym"⟩ (by decide)⟩

/-- The mastery fold preserves the invariant that is_mastered holds exactly
when the counter has reached 2, and the counter never exceeds 2. -/
theorem mastery_fold_inv (attempts : List (Bool × Bool)) :
    ∀ st : QuestionMasteryState,
      st.is_mastered = decide (2 ≤ st.first_try_correct_count) →
      st.first_try_correct_count ≤ 2 →
      ((attempts.foldl (fun st a => recordAttempt st a.1 a.2) st).is_mastered
        = decide (2 ≤ (attempts.foldl (fun st a => recordAttempt st a.1 a.2)
            st).first_try_correct_count)
      ∧ (attempts.foldl (fun st a => recordAttempt st a.1 a.2)
          st).first_try_correct_count ≤ 2) := by
  induction attempts with
  | nil => intro st h1 h2; exact ⟨h1, h2⟩
  | cons a rest ih =>
    intro st h1 h2
    rw [List.foldl_cons]
    refine ih (recordAttempt st a.1 a.2) ?_ ?_
    · unfold recordAttempt
      split
      · rfl
      · exact h1
    · unfold recordAttempt
      split
      · rename_i hcond
        rw [Bool.and_eq_true] at hcond
        have hm : st.is_mastered = false := by simpa using hcond.2
        rw [hm] at h1
        have hnot := of_decide_eq_false h1.symm
        show st.first_try_correct_count + 1 ≤ 2
        omega
      · exact h2

/-- Each recordAttempt step can only raise the is_mastered flag. -/
theorem mastery_step_mono (st : QuestionMasteryState) (a : Bool × Bool) :
    st.is_mastered ≤ (recordAttempt st a.1 a.2).is_mastered := by
  cases hm : st.is_mastered with
  | false => exact Bool.false_le _
  | true =>
    unfold recordAttempt
    rw [hm]
    simp [hm]

/-- The mastery fold can only raise the is_mastered flag. -/
theorem mastery_fold_mono (more : List (Bool × Bool)) :
    ∀ st : QuestionMasteryState,
      st.is_mastered
        ≤ (more.foldl (fun st a => recordAttempt st a.1 a.2) st).is_mastered := by
  induction more with
  | nil => intro st; exact le_refl _
  | cons a rest ih =>
    intro st
    rw [List.foldl_cons]
    exact le_trans (mastery_step_mono st a) (ih (recordAttempt st a.1 a.2))

/-- C5: after any sequence of recorded attempts, is_mastered holds exactly
when the first-try-correct counter has reached 2 (so it flips exactly on the
second correct first attempt and never earlier), the counter never increments
beyond 2, and recording further attempts never reverts is_mastered. -/
theorem c5_mastery_two_correct_first_attempts
    (attempts more : List (Bool × Bool)) :
    (runAttempts attempts).is_mastered
        = decide (2 ≤ (runAttempts attempts).first_try_correct_count)
    ∧ (runAttempts attempts).first_try_correct_count ≤ 2
    ∧ (runAttempts attempts).is_mastered
        ≤ (runAttempts (attempts ++ more)).is_mastered := by
  have hinv := mastery_fold_inv attempts initialMastery rfl (by decide)
  refine ⟨hinv.1, hinv.2, ?_⟩
  unfold runAttempts
  rw [List.foldl_append]
  exact mastery_fold_mono more _

/-- C6: the word-mastery read satisfies percentage * totalQuestions
= masteredQuestions * 100 whenever totalQuestions is nonzero, yields
percentage 0 (not an error) when totalQuestions is 0, and a newly added
question-word mapping is reflected immediately on the next read (the total
grows by one). -/
theorem c6_word_mastery_percentage (mapping : List (Nat × Nat))
    (masteredQ : Nat → Bool) (w q : Nat) :
    ((wordMastery mapping masteredQ w).totalQuestions ≠ 0 →
      (wordMastery mapping masteredQ w).percentage
          * ((wordMastery mapping masteredQ w).totalQuestions : Rat)
        = ((wordMastery mapping masteredQ w).masteredQuestions : Rat) * 100)
    ∧ ((wordMastery mapping masteredQ w).totalQuestions = 0 →
        (wordMastery mapping masteredQ w).percentage = 0)
    ∧ ((q, w) ∉ mapping →
        (wordMastery (mapping ++ [(q, w)]) masteredQ w).totalQuestions
          = (wordMastery mapping masteredQ w).totalQuestions + 1) := by
  refine ⟨?_, ?_, ?_⟩
  · intro h
    unfold wordMastery at h ⊢
    dsimp only at h ⊢
    rw [if_neg h]
    exact div_mul_cancel₀ _ (Nat.cast_ne_zero.mpr h)
  · intro h
    unfold wordMastery at h ⊢
    dsimp only at h ⊢
    rw [if_pos h]
  · intro hnotin
    unfold wordMastery questionsMappedTo
    dsimp only
    rw [List.filter_append]
    have hfil : (([(q, w)] : List (Nat × Nat)).filter (fun p => p.2 == w))
        = [(q, w)] := by simp
    rw [hfil, List.map_append]
    have hqnot : q ∉ (mapping.filter (fun p => p.2 == w)).map
        (fun p => p.1) := by
      intro hq
      obtain ⟨pr, hpr, hpr1⟩ := List.mem_map.mp hq
      have hpr2 : pr.2 = w := by simpa using (List.mem_filter.mp hpr).2
      have hpr0 : pr = (q, w) := by
        cases pr
        simp only at hpr1 hpr2
        rw [hpr1, hpr2]
      exact hnotin (hpr0 ▸ (List.mem_filter.mp hpr).1)
    rw [← List.card_toFinset, ← List.card_toFinset, List.toFinset_append]
    simp only [List.map_cons, List.map_nil, List.toFinset_cons,
      List.toFinset_nil, insert_emptyc_eq]
    rw [Finset.union_comm, ← Finset.insert_eq]
    exact Finset.card_insert_of_not_mem (by simpa using hqnot)

/-- C6 witness: for the word 7 mapped to question 1 (mastered), the
percentage relation holds with total 1, and adding a mapping of question 2 to
word 7 raises the total to 2 on the next read. -/
theorem c6_word_mastery_percentage_witness :
    (wordMastery [(1, 7)] (fun n => n == 1) 7).totalQuestions ≠ 0
    ∧ (wordMastery [(1, 7)] (fun n => n == 1) 7).percentage
        * ((wordMastery [(1, 7)] (fun n => n == 1) 7).totalQuestions : Rat)
      = ((wordMastery [(1, 7)] (fun n => n == 1) 7).masteredQuestions : Rat)
          * 100
    ∧ ((2, 7) ∉ ([(1, 7)] : List (Nat × Nat))
    ∧ (wordMastery ([(1, 7)] ++ [(2, 7)]) (fun n => n == 1) 7).totalQuestions
        = (wordMastery [(1, 7)] (fun n => n == 1) 7).totalQuestions + 1) :=
  ⟨by decide,
    (c6_word_mastery_percentage [(1, 7)] (fun n => n == 1) 7 2).1 (by decide),
    by decide,
    (c6_word_mastery_percentage [(1, 7)] (fun n => n == 1) 7 2).2.2
      (by decide)⟩

/-- A Python slice l[:n] is a sublist of l. -/
theorem pySlice_sublist (l : List α) (n : Int) : (pySlice l n).Sublist l := by
  unfold pySlice
  split
  · exact List.take_sublist _ _
  · exact List.take_sublist _ _

/-- Unfolding of a successful questionMatches test. -/
theorem questionMatches_spec {q : CatQuestion} {t : String} {exq exw : List Nat}
    (h : questionMatches q t exq exw = true) :
    q.quiz_type = t ∧ exq.contains q.question_id = false
    ∧ q.words.any (fun w => exw.contains w) = false := by
  unfold questionMatches at h
  rw [Bool.and_eq_true, Bool.and_eq_true] at h
  obtain ⟨⟨h1, h2⟩, h3⟩ := h
  refine ⟨eq_of_beq h1, ?_, ?_⟩
  · simpa using h2
  · simpa using h3

/-- Every question returned by get_questions_by_criteria is a catalog row
passing the query's WHERE clause. -/
theorem gqc_mem {cat : List CatQuestion} {t : String} {c : Nat}
    {exq exw : List Nat} {q : CatQuestion}
    (hq : q ∈ get_questions_by_criteria cat t c exq exw) :
    q ∈ cat ∧ questionMatches q t exq exw = true := by
  unfold get_questions_by_criteria at hq
  have h1 := List.take_subset _ _ (List.take_subset _ _ hq)
  exact ⟨(List.mem_filter.mp h1).1, (List.mem_filter.mp h1).2⟩

/-- get_questions_by_criteria returns a sublist of the catalog. -/
theorem gqc_sublist (cat : List CatQuestion) (t : String) (c : Nat)
    (exq exw : List Nat) :
    (get_questions_by_criteria cat t c exq exw).Sublist cat :=
  ((List.take_sublist _ _).trans (List.take_sublist _ _)).trans
    (List.filter_sublist _)

/-- One get_questions_by_criteria call returns pairwise-distinct question ids
(sampling without replacement from a primary-keyed table). -/
theorem gqc_nodup {cat : List CatQuestion}
    (hcat : (cat.map (fun q => q.question_id)).Nodup)
    (t : String) (c : Nat) (exq exw : List Nat) :
    ((get_questions_by_criteria cat t c exq exw).map
      (fun q => q.question_id)).Nodup :=
  List.Nodup.sublist
    (List.Sublist.map (fun q => q.question_id) (gqc_sublist cat t c exq exw))
    hcat

/-- The collected question list (per-type queries plus backfill) has
pairwise-distinct question ids: a question belongs to exactly one quiz type,
the per-type sub-targets are dict keys (distinct), and the backfill query
excludes every already-used question id. -/
theorem collect_nodup {cat : List CatQuestion} {config : QuizConfig}
    {exq exw : List Nat}
    (hcat : (cat.map (fun q => q.question_id)).Nodup)
    (hdist : (config.format_distribution.map (fun p => p.1)).Nodup) :
    ((collectQuestions cat config exq exw).map
      (fun q => q.question_id)).Nodup := by
  have hflat : (((config.format_distribution.map
      (fun p => get_questions_by_criteria cat p.1 p.2 exq exw)).flatten).map
        (fun q => q.question_id)).Nodup := by
    rw [List.map_flatten, List.map_map, List.nodup_flatten]
    constructor
    · intro l hl
      obtain ⟨p, hp, rfl⟩ := List.mem_map.mp hl
      exact gqc_nodup hcat p.1 p.2 exq exw
    · rw [List.pairwise_map]
      have hpw : config.format_distribution.Pairwise
          (fun p p' => p.1 ≠ p'.1) := List.pairwise_map.mp hdist
      refine hpw.imp ?_
      intro p p' hne x hx hx'
      simp only [Function.comp] at hx hx'
      obtain ⟨a, ha, rfl⟩ := List.mem_map.mp hx
      obtain ⟨b, hb, hba⟩ := List.mem_map.mp hx'
      obtain ⟨hacat, hamatch⟩ := gqc_mem ha
      obtain ⟨hbcat, hbmatch⟩ := gqc_mem hb
      have hab : b = a := List.inj_on_of_nodup_map hcat hbcat hacat hba
      apply hne
      rw [← (questionMatches_spec hamatch).1, ← (questionMatches_spec hbmatch).1,
        hab]
  unfold collectQuestions
  dsimp only
  split
  · rw [List.map_append, List.nodup_append]
    refine ⟨hflat, gqc_nodup hcat _ _ _ _, ?_⟩
    intro x hx hx'
    obtain ⟨b, hb, rfl⟩ := List.mem_map.mp hx'
    obtain ⟨-, hbmatch⟩ := gqc_mem hb
    have hcontains := (questionMatches_spec hbmatch).2.1
    have htrue : ((exq ++ ((config.format_distribution.map
        (fun p => get_questions_by_criteria cat p.1 p.2 exq exw)).flatten.map
          (fun q => q.question_id))).contains b.question_id) = true :=
      List.elem_iff.mpr (List.mem_append_right _ hx)
    rw [htrue] at hcontains
    cases hcontains
  · exact hflat

/-- Every collected question passed one of the query filters, so none of its
mapped words is in the excluded-word set. -/
theorem collect_words_not_excluded {cat : List CatQuestion}
    {config : QuizConfig} {exq exw : List Nat} {q : CatQuestion}
    (hq : q ∈ collectQuestions cat config exq exw) :
    q.words.any (fun w => exw.contains w) = false := by
  unfold collectQuestions at hq
  dsimp only at hq
  split at hq
  · rcases List.mem_append.mp hq with hq | hq
    · obtain ⟨l, hl, hql⟩ := List.mem_flatten.mp hq
      obtain ⟨p, hp, rfl⟩ := List.mem_map.mp hl
      exact (questionMatches_spec (gqc_mem hql).2).2.2
    · exact (questionMatches_spec (gqc_mem hq).2).2.2
  · obtain ⟨l, hl, hql⟩ := List.mem_flatten.mp hq
    obtain ⟨p, hp, rfl⟩ := List.mem_map.mp hl
    exact (questionMatches_spec (gqc_mem hql).2).2.2

/-- C7 counterexample: the claim as stated forbids returning a question all
of whose mapped words are excluded; a catalog question with no mapped words
vacuously satisfies that condition, yet the selector returns it. -/
theorem c7_selector_excluded_words_counterexample :
    (generate_quiz ⟨1, [("synonym", 1)]⟩
        (collectQuestions [⟨1, "q", "a", ["a"], "synonym", []⟩]
          ⟨1, [("synonym", 1)]⟩ [] [5])).any
      (fun q => q.words.all (fun w => ([5] : List Nat).contains w))
      = true := by decide

/-- C7 (amended): for every selector call (catalog ids distinct, distribution
keys distinct, any shuffle permutation), the returned list has no duplicate
question ids, and contains no question that has at least one mapped word and
all of whose mapped words lie in the excluded-word set (a question with no
mapped words can still be returned). -/
theorem c7_selector_nodup_and_excluded_words (cat : List CatQuestion)
    (config : QuizConfig) (exq exw : List Nat) (shuffled : List CatQuestion)
    (hcat : (cat.map (fun q => q.question_id)).Nodup)
    (hdist : (config.format_distribution.map (fun p => p.1)).Nodup)
    (hshuf : shuffled.Perm (collectQuestions cat config exq exw)) :
    ((generate_quiz config shuffled).map (fun q => q.question_id)).Nodup
    ∧ (generate_quiz config shuffled).all
        (fun q => q.words.isEmpty
          || q.words.any (fun w => !exw.contains w)) = true := by
  have hnodupShuf : (shuffled.map (fun q => q.question_id)).Nodup :=
    ((hshuf.map (fun q => q.question_id)).nodup_iff).mpr
      (collect_nodup hcat hdist)
  constructor
  · exact List.Nodup.sublist
      (List.Sublist.map (fun q => q.question_id)
        (pySlice_sublist shuffled config.target_question_count))
      hnodupShuf
  · rw [List.all_eq_true]
    intro q hq
    have hqshuf : q ∈ shuffled :=
      List.Sublist.subset
        (pySlice_sublist shuffled config.target_question_count) hq
    have hqcollect : q ∈ collectQuestions cat config exq exw :=
      hshuf.mem_iff.mp hqshuf
    have hfalse := collect_words_not_excluded hqcollect
    cases hw : q.words with
    | nil => rfl
    | cons a as =>
      rw [hw] at hfalse
      rw [Bool.or_eq_true, List.any_eq_true]
      refine Or.inr ⟨a, List.mem_cons_self a as, ?_⟩
      have hcontains : exw.contains a = false := by
        have hall := List.any_eq_false.mp hfalse
        simpa using hall a (List.mem_cons_self a as)
      rw [hcontains]
      rfl

/-- C7 witness: a concrete two-type selector call (distinct catalog ids,
distinct distribution keys, identity shuffle) returning distinct ids with no
word-excluded question. -/
theorem c7_selector_nodup_and_excluded_words_witness :
    (([⟨1, "a", "x", ["x"], "synonym", [7]⟩,
        ⟨2, "b", "y", ["y"], "antonym", [8]⟩] : List CatQuestion).map
      (fun q => q.question_id)).Nodup
    ∧ (([("synonym", 1), ("antonym", 1)] : List (String × Nat)).map
        (fun p => p.1)).Nodup
    ∧ (collectQuestions [⟨1, "a", "x", ["x"], "synonym", [7]⟩,
          ⟨2, "b", "y", ["y"], "antonym", [8]⟩]
        ⟨2, [("synonym", 1), ("antonym", 1)]⟩ [] [9]).Perm
      (collectQuestions [⟨1, "a", "x", ["x"], "synonym", [7]⟩,
          ⟨2, "b", "y", ["y"], "antonym", [8]⟩]
        ⟨2, [("synonym", 1), ("antonym", 1)]⟩ [] [9])
    ∧ ((generate_quiz ⟨2, [("synonym", 1), ("antonym", 1)]⟩
        (collectQuestions [⟨1, "a", "x", ["x"], "synonym", [7]⟩,
            ⟨2, "b", "y", ["y"], "antonym", [8]⟩]
          ⟨2, [("synonym", 1), ("antonym", 1)]⟩ [] [9])).map
        (fun q => q.question_id)).Nodup
    ∧ (generate_quiz ⟨2, [("synonym", 1), ("antonym", 1)]⟩
        (collectQuestions [⟨1, "a", "x", ["x"], "synonym", [7]⟩,
            ⟨2, "b", "y", ["y"], "antonym", [8]⟩]
          ⟨2, [("synonym", 1), ("antonym", 1)]⟩ [] [9])).all
        (fun q => q.words.isEmpty
          || q.words.any (fun w => !([9] : List Nat).contains w)) = true :=
  ⟨by decide, by decide, List.Perm.refl _,
    (c7_selector_nodup_and_excluded_words
      [⟨1, "a", "x", ["x"], "synonym", [7]⟩,
        ⟨2, "b", "y", ["y"], "antonym", [8]⟩]
      ⟨2, [("synonym", 1), ("antonym", 1)]⟩ [] [9] _
      (by decide) (by decide) (List.Perm.refl _)).1,
    (c7_selector_nodup_and_excluded_words
      [⟨1, "a", "x", ["x"], "synonym", [7]⟩,
        ⟨2, "b", "y", ["y"], "antonym", [8]⟩]
      ⟨2, [("synonym", 1), ("antonym", 1)]⟩ [] [9] _
      (by decide) (by decide) (List.Perm.refl _)).2⟩

/-- C8 counterexample: with a negative target (-1) the selector does not
return an empty list — Python's all_questions[:-1] drops only the last
element, so two selected questions yield one. -/
theorem c8_selector_nonpositive_target_counterexample :
    generate_quiz ⟨-1, [("synonym", 2)]⟩
      (collectQuestions [⟨1, "q1", "a", ["a"], "synonym", []⟩,
          ⟨2, "q2", "a", ["a"], "synonym", []⟩]
        ⟨-1, [("synonym", 2)]⟩ [] []) ≠ [] := by decide

/-- C8 (amended): a target of exactly 0 yields an empty result and no error;
a negative target yields, without error, the collected question list minus
its last |target| elements (Python slice semantics), which is non-empty
whenever more than |target| questions were collected. -/
theorem c8_selector_nonpositive_target (cat : List CatQuestion)
    (config : QuizConfig) (exq exw : List Nat) (shuffled : List CatQuestion)
    (hshuf : shuffled.Perm (collectQuestions cat config exq exw)) :
    (config.target_question_count = 0 → generate_quiz config shuffled = [])
    ∧ (config.target_question_count < 0 →
        (generate_quiz config shuffled).length
          = (collectQuestions cat config exq exw).length
              - (-config.target_question_count).toNat) := by
  constructor
  · intro h
    unfold generate_quiz pySlice
    rw [h]
    simp
  · intro h
    unfold generate_quiz pySlice
    rw [if_neg (by omega), List.length_take, hshuf.length_eq]
    exact Nat.min_eq_left (Nat.sub_le _ _)

/-- C8 witness: concrete instances of both amended branches, at target 0 and
target -1 over a two-question catalog. -/
theorem c8_selector_nonpositive_target_witness :
    generate_quiz ⟨0, [("synonym", 2)]⟩
        (collectQuestions [⟨1, "q1", "a", ["a"], "synonym", []⟩,
            ⟨2, "q2", "a", ["a"], "synonym", []⟩] ⟨0, [("synonym", 2)]⟩ [] [])
      = []
    ∧ (generate_quiz ⟨-1, [("synonym", 2)]⟩
        (collectQuestions [⟨1, "q1", "a", ["a"], "synonym", []⟩,
            ⟨2, "q2", "a", ["a"], "synonym", []⟩]
          ⟨-1, [("synonym", 2)]⟩ [] [])).length
      = (collectQuestions [⟨1, "q1", "a", ["a"], "synonym", []⟩,
            ⟨2, "q2", "a", ["a"], "synonym", []⟩]
          ⟨-1, [("synonym", 2)]⟩ [] []).length - (-(-1 : Int)).toNat :=
  ⟨(c8_selector_nonpositive_target
      [⟨1, "q1", "a", ["a"], "synonym", []⟩,
        ⟨2, "q2", "a", ["a"], "synonym", []⟩]
      ⟨0, [("synonym", 2)]⟩ [] [] _ (List.Perm.refl _)).1 rfl,
    (c8_selector_nonpositive_target
      [⟨1, "q1", "a", ["a"], "synonym", []⟩,
        ⟨2, "q2", "a", ["a"], "synonym", []⟩]
      ⟨-1, [("synonym", 2)]⟩ [] [] _ (List.Perm.refl _)).2 (by decide)⟩

/-- C10: for every selector call with a nonnegative target, the returned list
has length at most the target: the combined per-type results are truncated to
the target after the final shuffle, even when the per-type sub-targets sum to
more than the target. -/
theorem c10_selector_result_at_most_target (cat : List CatQuestion)
    (config : QuizConfig) (exq exw : List Nat) (shuffled : List CatQuestion)
    (hshuf : shuffled.Perm (collectQuestions cat config exq exw))
    (htarget : 0 ≤ config.target_question_count) :
    ((generate_quiz config shuffled).length : Int)
      ≤ config.target_question_count := by
  unfold generate_quiz pySlice
  rw [if_pos htarget, List.length_take]
  have h1 : (config.target_question_count.toNat ⊓ shuffled.length)
      ≤ config.target_question_count.toNat := Nat.min_le_left _ _
  omega

/-- C10 witness: a sub-target of 3 synonym questions with an overall target
of 2 over a three-question catalog returns at most 2 questions. -/
theorem c10_selector_result_at_most_target_witness :
    (collectQuestions [⟨1, "q1", "a", ["a"], "synonym", []⟩,
        ⟨2, "q2", "a", ["a"], "synonym", []⟩,
        ⟨3, "q3", "a", ["a"], "synonym", []⟩] ⟨2, [("synonym", 3)]⟩ [] []).Perm
      (collectQuestions [⟨1, "q1", "a", ["a"], "synonym", []⟩,
          ⟨2, "q2", "a", ["a"], "synonym", []⟩,
          ⟨3, "q3", "a", ["a"], "synonym", []⟩] ⟨2, [("synonym", 3)]⟩ [] [])
    ∧ (0 : Int) ≤ (2 : Int)
    ∧ ((generate_quiz ⟨2, [("synonym", 3)]⟩
        (collectQuestions [⟨1, "q1", "a", ["a"], "synonym", []⟩,
            ⟨2, "q2", "a", ["a"], "synonym", []⟩,
            ⟨3, "q3", "a", ["a"], "synonym", []⟩]
          ⟨2, [("synonym", 3)]⟩ [] [])).length : Int) ≤ (2 : Int) :=
  ⟨List.Perm.refl _, by decide,
    c10_selector_result_at_most_target
      [⟨1, "q1", "a", ["a"], "synonym", []⟩,
        ⟨2, "q2", "a", ["a"], "synonym", []⟩,
        ⟨3, "q3", "a", ["a"], "synonym", []⟩]
      ⟨2, [("synonym", 3)]⟩ [] [] _ (List.Perm.refl _) (by decide)⟩

end VocabQuiz
